import Mathlib

/-!
Verification of the DYET learning-content portal against its specification.

The development shallowly embeds the server route handlers of
`src/app/api/(model)/studentexam.ts` and
`src/app/api/student-activity-exam/route.ts`, and the client-side quiz
scoring of the admin exam page.  JavaScript values flowing through the
quiz pipeline are modelled by the inductive `Json`; the external JSON
parser, the Cloudinary uploader, the PDF extractor and the generative
API are abstracted as function parameters, so every theorem quantifies
over their behaviour.
-/

namespace DYET

/-- Model of a parsed JSON / JavaScript value (no `undefined`: property
reads that yield `undefined` are modelled by `Option.none`). -/
inductive Json where
  | null
  | bool (b : Bool)
  | num (n : Int)
  | str (s : String)
  | arr (xs : List Json)
  | obj (fields : List (String × Json))

/-- JavaScript truthiness of a value. -/
def Json.truthy : Json → Bool
  | .null => false
  | .bool b => b
  | .num n => decide (n ≠ 0)
  | .str s => decide (s ≠ "")
  | .arr _ => true
  | .obj _ => true

/-- First binding of a key in an object field list (JS object keys are
unique, duplicates keep the last one in real JS parse output; field
lists we build have unique keys so first = last). -/
def lookupField : List (String × Json) → String → Option Json
  | [], _ => none
  | (k, v) :: fs, key => if k = key then some v else lookupField fs key

/-- Property read `v.k` on a non-null value: objects look the key up,
anything else yields `undefined` (`none`).  Reads on `null` throw in JS
and are handled separately at each use site. -/
def jsFieldOpt : Json → String → Option Json
  | .obj fs, key => lookupField fs key
  | _, _ => none

/-- Optional-chaining read `v?.k`. -/
def jsChainField : Option Json → String → Option Json
  | some (.obj fs), key => lookupField fs key
  | _, _ => none

/-- Optional-chaining index `v?.[i]`. -/
def jsChainIndex : Option Json → Nat → Option Json
  | some (.arr xs), i => xs.get? i
  | _, _ => none

mutual

/-- JavaScript `String(v)` coercion, used when a non-string response
field reaches `Array.prototype.join`. -/
def Json.jsToString : Json → String
  | .null => "null"
  | .bool b => if b then "true" else "false"
  | .num n => toString n
  | .str s => s
  | .arr xs => jsToStringList xs
  | .obj _ => "[object Object]"

/-- Elements of an array joined with commas, as JS array coercion does. -/
def jsToStringList : List Json → String
  | [] => ""
  | [x] => Json.jsToString x
  | x :: y :: xs => Json.jsToString x ++ "," ++ jsToStringList (y :: xs)

end

/-- `item.question && typeof item.question === "string"` (and the same
for `answer`): the read value is a non-empty string. -/
def isNonEmptyStr : Option Json → Bool
  | some (.str s) => decide (s ≠ "")
  | _ => false

/-- `item.options && Array.isArray(item.options) && item.options.length >= 2`:
the read value is an array with at least two elements (element types are
not inspected by the source). -/
def isArrAtLeast2 : Option Json → Bool
  | some (.arr xs) => decide (2 ≤ xs.length)
  | _ => false

/-- The filter predicate shared verbatim by `parseQuizData` and the PUT
handler.  Reading `.question` on a `null` entry throws a `TypeError`,
modelled by `Except.error`. -/
def quizItemValid : Json → Except Unit Bool
  | .null => .error ()
  | item =>
      .ok (isNonEmptyStr (jsFieldOpt item "question") &&
           isArrAtLeast2 (jsFieldOpt item "options") &&
           isNonEmptyStr (jsFieldOpt item "answer"))

/-- `Array.prototype.filter` with the quiz predicate; a thrown
`TypeError` propagates out of the whole filter. -/
def filterQuizItems : List Json → Except Unit (List Json)
  | [] => .ok []
  | x :: xs =>
      match quizItemValid x with
      | .error e => .error e
      | .ok b =>
          match filterQuizItems xs with
          | .error e => .error e
          | .ok l => .ok (if b then x :: l else l)

/-- One left-to-right scan replacing non-overlapping occurrences of a
non-empty pattern.  Structural recursion on a fuel counter; every step
consumes at least one character, so fuel `s.length` makes the scan
exact (see `replaceAll`). -/
def replaceAllAux : Nat → List Char → List Char → List Char → List Char
  | 0, _, _, s => s
  | _ + 1, [], _, s => s
  | fuel + 1, p :: ps, repl, s =>
      match s with
      | [] => []
      | c :: rest =>
          if (c :: rest).take (p :: ps).length = p :: ps then
            repl ++ replaceAllAux fuel (p :: ps) repl ((c :: rest).drop (p :: ps).length)
          else
            c :: replaceAllAux fuel (p :: ps) repl rest

/-- Replace every non-overlapping occurrence of `pattern` in `s` by
`repl`, scanning left to right — the semantics of
`String.prototype.replace` with a global literal regex. -/
def replaceAll (pattern repl s : List Char) : List Char :=
  replaceAllAux s.length pattern repl s

/-- JS whitespace characters removed by `String.prototype.trim`
(the ASCII ones; the sources only ever produce these). -/
def isJsWs (c : Char) : Bool :=
  c = ' ' || c = '\t' || c = '\n' || c = '\r' || c = '\x0b' || c = '\x0c'

/-- `String.prototype.trim` on the character list. -/
def trimChars (s : List Char) : List Char :=
  ((s.dropWhile isJsWs).reverse.dropWhile isJsWs).reverse

/-- `String.prototype.trim`. -/
def jsTrim (s : String) : String :=
  String.mk (trimChars s.data)

/-- `cleanQuizData` from the source: strip code fences, trim, then slice
from the first brace to the last closing brace when that span is
non-degenerate. -/
def cleanQuizData (quizData : String) : String :=
  let cleaned := trimChars (replaceAll ("```".data) []
    (replaceAll ("```json".data) [] quizData.data))
  match cleaned.findIdx? (fun c => c = '{') with
  | none => String.mk cleaned
  | some jsonStartPos =>
      match cleaned.reverse.findIdx? (fun c => c = '}') with
      | none => String.mk cleaned
      | some r =>
          let jsonEndPos := cleaned.length - r
          if jsonStartPos < jsonEndPos then
            String.mk ((cleaned.drop jsonStartPos).take (jsonEndPos - jsonStartPos))
          else
            String.mk cleaned

/-- `parseQuizData` from the source, parameterised by the ambient JSON
parser (`parse s = none` models `JSON.parse` throwing).  Any exception —
parse failure or a `TypeError` thrown inside the filter — is caught and
turned into the empty list. -/
def parseQuizData (parse : String → Option Json) (quizData : String) : List Json :=
  match parse (cleanQuizData quizData) with
  | none => []
  | some parsedData =>
      if ¬ parsedData.truthy then []
      else
        match jsFieldOpt parsedData "quiz" with
        | none => []
        | some q =>
            if ¬ q.truthy then []
            else
              match q with
              | .arr items =>
                  match filterQuizItems items with
                  | .ok l => l
                  | .error _ => []
              | _ => []

/-! ### Lemmas about the quiz sanitizer -/

theorem isNonEmptyStr_spec (o : Option Json) (h : isNonEmptyStr o = true) :
    ∃ s, o = some (Json.str s) ∧ s ≠ "" := by
  cases o with
  | none => simp [isNonEmptyStr] at h
  | some v => cases v <;> simp [isNonEmptyStr] at h ⊢ <;> exact h

theorem isArrAtLeast2_spec (o : Option Json) (h : isArrAtLeast2 o = true) :
    ∃ xs, o = some (Json.arr xs) ∧ 2 ≤ xs.length := by
  cases o with
  | none => simp [isArrAtLeast2] at h
  | some v => cases v <;> simp [isArrAtLeast2] at h ⊢ <;> exact h

theorem quizItemValid_true_elim (item : Json) (h : quizItemValid item = .ok true) :
    isNonEmptyStr (jsFieldOpt item "question") = true ∧
    isArrAtLeast2 (jsFieldOpt item "options") = true ∧
    isNonEmptyStr (jsFieldOpt item "answer") = true := by
  cases item <;> simp [quizItemValid] at h <;> simp_all

theorem filterQuizItems_mem_valid :
    ∀ (items out : List Json), filterQuizItems items = .ok out →
      ∀ x ∈ out, quizItemValid x = .ok true := by
  intro items
  induction items with
  | nil =>
      intro out h x hx
      simp only [filterQuizItems] at h
      cases h
      simp at hx
  | cons a as ih =>
      intro out h x hx
      simp only [filterQuizItems] at h
      cases ha : quizItemValid a with
      | error e => rw [ha] at h; cases h
      | ok b =>
          rw [ha] at h
          cases hr : filterQuizItems as with
          | error e => rw [hr] at h; cases h
          | ok l =>
              rw [hr] at h
              cases h
              cases b with
              | true =>
                  simp at hx
                  rcases hx with rfl | hx
                  · exact ha
                  · exact ih l hr x hx
              | false => exact ih l hr x hx

/-- C3 (amended): every entry surviving the sanitizer has a non-empty
string `question`, a non-empty string `answer`, and an `options` field
that is an array with at least two elements.  (The source never checks
that the elements of `options` are strings; see the counterexample.) -/
theorem parseQuizData_entries_valid (parse : String → Option Json) (s : String) :
    ∀ item ∈ parseQuizData parse s,
      (∃ q, jsFieldOpt item "question" = some (Json.str q) ∧ q ≠ "") ∧
      (∃ opts, jsFieldOpt item "options" = some (Json.arr opts) ∧ 2 ≤ opts.length) ∧
      (∃ a, jsFieldOpt item "answer" = some (Json.str a) ∧ a ≠ "") := by
  intro item hmem
  unfold parseQuizData at hmem
  cases hp : parse (cleanQuizData s) with
  | none => rw [hp] at hmem; simp at hmem
  | some parsedData =>
      rw [hp] at hmem
      by_cases ht : parsedData.truthy = true
      · simp only [ht, not_true, if_false, reduceIte] at hmem
        cases hq : jsFieldOpt parsedData "quiz" with
        | none => rw [hq] at hmem; simp at hmem
        | some q =>
            rw [hq] at hmem
            by_cases htq : q.truthy = true
            · simp only [htq, not_true, reduceIte] at hmem
              cases q with
              | arr items =>
                  dsimp only at hmem
                  cases hf : filterQuizItems items with
                  | error e => rw [hf] at hmem; simp at hmem
                  | ok l =>
                      rw [hf] at hmem
                      have hv := filterQuizItems_mem_valid items l hf item hmem
                      obtain ⟨h1, h2, h3⟩ := quizItemValid_true_elim item hv
                      exact ⟨isNonEmptyStr_spec _ h1, isArrAtLeast2_spec _ h2,
                        isNonEmptyStr_spec _ h3⟩
              | null => simp at hmem
              | bool b => simp at hmem
              | num n => simp at hmem
              | str s => simp at hmem
              | obj fs => simp at hmem
            · simp [htq] at hmem
      · simp [ht] at hmem

/-- The quiz entry used in the C3 counterexample: it passes the filter
although its `options` elements are numbers, not strings. -/
def numericOptionsItem : Json :=
  Json.obj [("question", Json.str "q"),
            ("options", Json.arr [Json.num 1, Json.num 2]),
            ("answer", Json.str "a")]

/-- The raw text of the C3 counterexample request. -/
def numericOptionsInput : String :=
  "\x7b\"quiz\":[\x7b\"question\":\"q\",\"options\":[1,2],\"answer\":\"a\"\x7d]\x7d"

/-- The ambient JSON parser evaluated at the C3 counterexample text;
`JSON.parse` on that text yields exactly this object. -/
def numericOptionsParse : String → Option Json := fun s =>
  if s = numericOptionsInput then
    some (Json.obj [("quiz", Json.arr [numericOptionsItem])])
  else none

/-- C3 counterexample: on the concrete input whose single entry has
`options` `[1,2]`, the sanitizer keeps the entry, so its output can
contain an `options` list whose elements are not strings — refuting
"every element of options is a string". -/
theorem parseQuizData_nonstring_options :
    parseQuizData numericOptionsParse numericOptionsInput = [numericOptionsItem] ∧
    jsFieldOpt numericOptionsItem "options" =
      some (Json.arr [Json.num 1, Json.num 2]) ∧
    (∀ s, Json.num 1 ≠ Json.str s) := by
  refine ⟨rfl, rfl, ?_⟩
  intro s h
  cases h

/-- A valid entry used to instantiate the C3 witness. -/
def validQuizItem : Json :=
  Json.obj [("question", Json.str "q"),
            ("options", Json.arr [Json.str "a", Json.str "b"]),
            ("answer", Json.str "a")]

/-- Witness for C3 (amended) at a concrete parser and input. -/
theorem parseQuizData_entries_valid_witness :
    (∃ q, jsFieldOpt validQuizItem "question" = some (Json.str q) ∧ q ≠ "") ∧
    (∃ opts, jsFieldOpt validQuizItem "options" = some (Json.arr opts) ∧ 2 ≤ opts.length) ∧
    (∃ a, jsFieldOpt validQuizItem "answer" = some (Json.str a) ∧ a ≠ "") :=
  parseQuizData_entries_valid
    (fun _ => some (Json.obj [("quiz", Json.arr [validQuizItem])])) "" validQuizItem
    (by
      rw [show parseQuizData
          (fun _ => some (Json.obj [("quiz", Json.arr [validQuizItem])])) "" =
          [validQuizItem] from rfl]
      exact List.mem_singleton_self _)

/-- C8: if the cleaned text does not parse, or parses to a falsy value,
or to a value without a truthy `quiz` field, or whose `quiz` field is
not an array, the sanitizer returns the empty list.  (It never throws:
`parseQuizData` is a total function — every exception of the source is
caught and mapped to `[]`.) -/
theorem parseQuizData_unparsable_empty (parse : String → Option Json) (s : String) :
    (parse (cleanQuizData s) = none → parseQuizData parse s = []) ∧
    (∀ v, parse (cleanQuizData s) = some v →
      (v.truthy = false ∨ (¬ ∃ items, jsFieldOpt v "quiz" = some (Json.arr items))) →
      parseQuizData parse s = []) := by
  constructor
  · intro h
    unfold parseQuizData
    rw [h]
  · intro v hv hbad
    rcases hbad with hf | hnoarr
    · unfold parseQuizData
      rw [hv]
      simp [hf]
    · unfold parseQuizData
      rw [hv]
      cases hq : jsFieldOpt v "quiz" with
      | none => simp [hq]
      | some q =>
          cases q with
          | arr items => exact absurd ⟨items, hq⟩ hnoarr
          | null => simp [hq]
          | bool b => simp [hq]
          | num n => simp [hq]
          | str t => simp [hq]
          | obj fs => simp [hq]

/-- Witness for C8: a parser that throws on everything, and a parser
returning a falsy value, both make the sanitizer return `[]`. -/
theorem parseQuizData_unparsable_empty_witness :
    parseQuizData (fun _ => none) "x" = [] ∧
    parseQuizData (fun _ => some (Json.num 0)) "x" = [] :=
  ⟨(parseQuizData_unparsable_empty (fun _ => none) "x").1 rfl,
   (parseQuizData_unparsable_empty (fun _ => some (Json.num 0)) "x").2
     (Json.num 0) rfl (Or.inl rfl)⟩

/-! ### The Content Generator (`generateContent`) -/

/-- Generation mode of `generateContent`. -/
inductive GenType where
  | summary
  | quiz
deriving DecidableEq

/-- The per-chunk prompt built by `generateContent`. -/
def mkPrompt (t : GenType) (chunk : String) : String :=
  match t with
  | .summary => "Generate a concise summary of this content:\n\n" ++ chunk
  | .quiz =>
      "Generate a multiple-choice quiz from this content in JSON format like this:\n\x7b\n  \"quiz\": [\n    \x7b\n      \"question\": \"What is the capital of France?\",\n      \"options\": [\"Berlin\", \"Madrid\", \"Paris\", \"Rome\"],\n      \"answer\": \"Paris\"\n    \x7d\n  ]\n\x7d\n\n"
        ++ chunk

/-- The static fallback returned when the whole call fails: a fixed
placeholder sentence in summary mode, the `JSON.stringify` of the fixed
single-question placeholder quiz in quiz mode. -/
def fallbackContent : GenType → String
  | .summary => "Summary generation failed."
  | .quiz =>
      "\x7b\"quiz\":[\x7b\"question\":\"What is the capital of France?\",\"options\":[\"Berlin\",\"Madrid\",\"Paris\",\"Rome\"],\"answer\":\"Paris\"\x7d]\x7d"

/-- The chunking loop `for (i = 0; i < text.length; i += 90000)
push(text.slice(i, i + 90000))`, as structural recursion on a fuel
counter; every step consumes 90000 ≥ 1 characters, so fuel
`text.length` makes it exact (see `textChunks`). -/
def textChunksAux : Nat → List Char → List (List Char)
  | 0, _ => []
  | _ + 1, [] => []
  | fuel + 1, c :: rest =>
      ((c :: rest).take 90000) :: textChunksAux fuel (rest.drop 89999)

/-- Split the input into consecutive chunks of (at most) 90000
characters, in order. -/
def textChunks (text : List Char) : List (List Char) :=
  textChunksAux text.length text

/-- `Promise.all` over the per-chunk requests: succeeds with the
responses in chunk order, fails as a whole as soon as any single chunk
request fails. -/
def collectResponses (api : String → Except Unit Json) : List String → Except Unit (List Json)
  | [] => .ok []
  | p :: ps =>
      match api p, collectResponses api ps with
      | .ok r, .ok rs => .ok (r :: rs)
      | _, _ => .error ()

/-- `result?.candidates?.[0]?.content?.parts?.[0]?.text || ""` followed
by the string coercion `Array.prototype.join` applies to each element. -/
def extractResponseText (r : Json) : String :=
  match jsChainField (jsChainIndex (jsChainField (jsChainField
      (jsChainIndex (jsChainField (some r) "candidates") 0)
      "content") "parts") 0) "text" with
  | some v => if v.truthy then v.jsToString else ""
  | none => ""

/-- `generateContent` from the source: chunk the text, fan out one API
request per chunk, join the per-chunk texts with a single space in
chunk order; on any failure return the static fallback for the whole
call. -/
def generateContent (api : String → Except Unit Json) (text : String) (t : GenType) : String :=
  match collectResponses api (((textChunks text.data).map String.mk).map (mkPrompt t)) with
  | .ok responses => String.intercalate " " (responses.map extractResponseText)
  | .error _ => fallbackContent t

theorem textChunksAux_join (fuel : Nat) :
    ∀ l : List Char, l.length ≤ fuel → (textChunksAux fuel l).flatten = l := by
  induction fuel with
  | zero =>
      intro l hl
      have : l = [] := List.eq_nil_of_length_eq_zero (Nat.le_zero.mp hl)
      subst this
      rfl
  | succ n ih =>
      intro l hl
      cases l with
      | nil => rfl
      | cons c rest =>
          have hlen : (rest.drop 89999).length ≤ n := by
            simp only [List.length_drop]
            simp only [List.length_cons] at hl
            omega
          simp only [textChunksAux, List.flatten_cons]
          rw [ih (rest.drop 89999) hlen]
          have htk : (c :: rest).take 90000 = c :: rest.take 89999 := rfl
          rw [htk, List.cons_append, List.take_append_drop]

theorem textChunks_join (l : List Char) : (textChunks l).flatten = l :=
  textChunksAux_join l.length l (Nat.le_refl _)

theorem textChunksAux_sizes (fuel : Nat) :
    ∀ l : List Char, ∀ c ∈ textChunksAux fuel l, c.length ≤ 90000 ∧ c ≠ [] := by
  induction fuel with
  | zero => intro l c hc; simp [textChunksAux] at hc
  | succ n ih =>
      intro l c hc
      cases l with
      | nil => simp [textChunksAux] at hc
      | cons a rest =>
          simp only [textChunksAux, List.mem_cons] at hc
          rcases hc with rfl | hc
          · constructor
            · simp
            · simp
          · exact ih (rest.drop 89999) c hc

theorem collectResponses_ok_of_all (api : String → Except Unit Json) :
    ∀ ps rs, collectResponses api ps = .ok rs →
      rs.length = ps.length := by
  intro ps
  induction ps with
  | nil => intro rs h; cases h; rfl
  | cons p ps ih =>
      intro rs h
      simp only [collectResponses] at h
      cases hp : api p with
      | error e => rw [hp] at h; cases h
      | ok r =>
          rw [hp] at h
          cases hr : collectResponses api ps with
          | error e => rw [hr] at h; cases h
          | ok l => rw [hr] at h; cases h; simp [ih l hr]

theorem collectResponses_error_of_mem (api : String → Except Unit Json) :
    ∀ ps, (∃ p ∈ ps, api p = .error ()) →
      collectResponses api ps = .error () := by
  intro ps
  induction ps with
  | nil => rintro ⟨p, hp, _⟩; simp at hp
  | cons q qs ih =>
      rintro ⟨p, hp, herr⟩
      simp only [List.mem_cons] at hp
      simp only [collectResponses]
      rcases hp with rfl | hp
      · rw [herr]
      · rw [ih ⟨p, hp, herr⟩]
        cases api q <;> rfl

/-- C5: `generateContent` splits the text into consecutive chunks that
cover the whole input in order (each non-empty, of at most the fixed
90000-character size); when every chunk request succeeds it returns the
per-chunk response texts joined by single spaces in chunk order; when
any chunk request fails, the whole call returns the static fallback for
its mode — never a partial result. -/
theorem generateContent_spec (api : String → Except Unit Json) (text : String) (t : GenType) :
    (String.mk (textChunks text.data).flatten = text) ∧
    (∀ c ∈ textChunks text.data, c.length ≤ 90000 ∧ c ≠ []) ∧
    (∀ rs, collectResponses api (((textChunks text.data).map String.mk).map (mkPrompt t)) = .ok rs →
      generateContent api text t = String.intercalate " " (rs.map extractResponseText)) ∧
    (∀ c ∈ textChunks text.data, api (mkPrompt t (String.mk c)) = .error () →
      generateContent api text t = fallbackContent t) := by
  refine ⟨?_, ?_, ?_, ?_⟩
  · rw [textChunks_join]
  · exact textChunksAux_sizes text.data.length text.data
  · intro rs h
    unfold generateContent
    rw [h]
  · intro c hc herr
    unfold generateContent
    rw [collectResponses_error_of_mem api _ ?_]
    exact ⟨mkPrompt t (String.mk c), by
      simp only [List.map_map, List.mem_map]
      exact ⟨c, hc, rfl⟩, herr⟩

/-- Witness for C5 at the two-character text "ab" (a single chunk),
with an API that always succeeds and one that always fails. -/
theorem generateContent_spec_witness :
    String.mk (textChunks "ab".data).flatten = "ab" ∧
    generateContent (fun _ => Except.ok (Json.obj [])) "ab" GenType.summary =
      String.intercalate " " ([Json.obj []].map extractResponseText) ∧
    generateContent (fun _ => Except.error ()) "ab" GenType.quiz =
      fallbackContent GenType.quiz :=
  ⟨(generateContent_spec (fun _ => Except.ok (Json.obj [])) "ab" GenType.summary).1,
   (generateContent_spec (fun _ => Except.ok (Json.obj [])) "ab" GenType.summary).2.2.1
     [Json.obj []] rfl,
   (generateContent_spec (fun _ => Except.error ()) "ab" GenType.quiz).2.2.2
     ("ab".data)
     (by
       rw [show textChunks "ab".data = ["ab".data] from rfl]
       exact List.mem_singleton_self ("ab".data))
     rfl⟩

/-! ### The Activity Log Store (`/api/student-activity-exam`) -/

/-- The two recognised activity kinds. -/
inductive ActivityType where
  | notes_access
  | quiz_submission
deriving DecidableEq

/-- The quiz result payload of a submission (`score`, `totalQuestions`,
`answers` as a string-keyed string map). -/
structure QuizResult where
  score : Int
  totalQuestions : Int
  answers : List (String × String)

/-- A persisted `StudentActivity` document, per the Mongoose schema. -/
structure StoredActivity where
  userId : String
  userName : String
  exam : String
  subject : String
  chapterNumber : Int
  activityType : ActivityType
  quizResult : Option QuizResult
  timestamp : Nat

/-- The JSON body of a POST to the activity route, destructured; a
missing field is `none`.  Fields carry the types the `IStudentActivity`
interface declares for them. -/
structure ActivityPostBody where
  userId : Option String
  userName : Option String
  exam : Option String
  subject : Option String
  chapterNumber : Option Int
  activityType : Option String
  quizResult : Option QuizResult

/-- Truthiness of a destructured string field (`undefined` and the
empty string are falsy). -/
def truthyStr : Option String → Bool
  | none => false
  | some s => decide (s ≠ "")

/-- The POST handler of the activity route: field validation, the
activity-kind whitelist, then construction of the stored record with a
server-side timestamp.  `Except.error` carries the HTTP status of the
rejection. -/
def postActivity (b : ActivityPostBody) (now : Nat) : Except Nat StoredActivity :=
  if ¬ truthyStr b.userId ∨ ¬ truthyStr b.userName ∨ ¬ truthyStr b.exam ∨
      ¬ truthyStr b.subject ∨ b.chapterNumber = none ∨ ¬ truthyStr b.activityType then
    .error 400
  else if ¬ (b.activityType = some "notes_access" ∨ b.activityType = some "quiz_submission") then
    .error 400
  else
    .ok {
      userId := b.userId.getD ""
      userName := b.userName.getD ""
      exam := b.exam.getD ""
      subject := b.subject.getD ""
      chapterNumber := b.chapterNumber.getD 0
      activityType :=
        if b.activityType = some "quiz_submission" then .quiz_submission else .notes_access
      quizResult :=
        if b.activityType = some "quiz_submission" then b.quizResult else none
      timestamp := now }

/-- C2 counterexample body: a fully valid `quiz_submission` request
that carries no `quizResult` field. -/
def quizNoResultBody : ActivityPostBody :=
  { userId := some "u1", userName := some "User One", exam := some "GATE",
    subject := some "Physics", chapterNumber := some 1,
    activityType := some "quiz_submission", quizResult := none }

/-- C2 counterexample: the append operation accepts and stores a
`quiz_submission` record with no quiz result (the source only attaches
`quizResult` when the caller supplied one), refuting the "every stored
quiz-submission record has a quizResult" direction of the claimed
iff-invariant. -/
theorem postActivity_quiz_without_result :
    postActivity quizNoResultBody 0 =
      .ok { userId := "u1", userName := "User One", exam := "GATE",
            subject := "Physics", chapterNumber := 1,
            activityType := .quiz_submission, quizResult := none,
            timestamp := 0 } := by
  rfl

/-- C2 (amended): the stored quiz result is present *only if* the
activity kind is quiz-submission — a stored `notes_access` record never
has one — and a stored `quiz_submission` record carries exactly the
`quizResult` the request supplied (which may be absent). -/
theorem postActivity_quizResult_only_if (b : ActivityPostBody) (now : Nat)
    (rec : StoredActivity) (h : postActivity b now = .ok rec) :
    (rec.activityType = .notes_access → rec.quizResult = none) ∧
    (rec.quizResult.isSome = true → rec.activityType = .quiz_submission) ∧
    (rec.activityType = .quiz_submission → rec.quizResult = b.quizResult) := by
  unfold postActivity at h
  split at h
  · cases h
  · split at h
    · cases h
    · cases h
      by_cases hq : b.activityType = some "quiz_submission"
      · simp [hq]
      · simp [hq]

/-- Witness for C2 (amended) at the counterexample body. -/
theorem postActivity_quizResult_only_if_witness :
    ((StoredActivity.mk "u1" "User One" "GATE" "Physics" 1
        .quiz_submission none 0).activityType = .notes_access →
      (StoredActivity.mk "u1" "User One" "GATE" "Physics" 1
        .quiz_submission none 0).quizResult = none) ∧
    ((StoredActivity.mk "u1" "User One" "GATE" "Physics" 1
        .quiz_submission none 0).quizResult.isSome = true →
      (StoredActivity.mk "u1" "User One" "GATE" "Physics" 1
        .quiz_submission none 0).activityType = .quiz_submission) ∧
    ((StoredActivity.mk "u1" "User One" "GATE" "Physics" 1
        .quiz_submission none 0).activityType = .quiz_submission →
      (StoredActivity.mk "u1" "User One" "GATE" "Physics" 1
        .quiz_submission none 0).quizResult = quizNoResultBody.quizResult) :=
  postActivity_quizResult_only_if quizNoResultBody 0 _ rfl

/-- Insertion into a list already sorted newest-first, keeping newer
records first. -/
def insertByTimestampDesc (r : StoredActivity) : List StoredActivity → List StoredActivity
  | [] => [r]
  | x :: xs =>
      if x.timestamp < r.timestamp then r :: x :: xs
      else x :: insertByTimestampDesc r xs

/-- `.sort (timestamp: -1)`: order the query result newest-first. -/
def sortByTimestampDesc : List StoredActivity → List StoredActivity
  | [] => []
  | x :: xs => insertByTimestampDesc x (sortByTimestampDesc xs)

theorem mem_insertByTimestampDesc (r x : StoredActivity) :
    ∀ l, (x ∈ insertByTimestampDesc r l ↔ x = r ∨ x ∈ l) := by
  intro l
  induction l with
  | nil => simp [insertByTimestampDesc]
  | cons a as ih =>
      simp only [insertByTimestampDesc]
      split
      · simp
      · simp only [List.mem_cons, ih]
        tauto

theorem mem_sortByTimestampDesc (x : StoredActivity) :
    ∀ l, (x ∈ sortByTimestampDesc l ↔ x ∈ l) := by
  intro l
  induction l with
  | nil => simp [sortByTimestampDesc]
  | cons a as ih =>
      simp only [sortByTimestampDesc, mem_insertByTimestampDesc, ih, List.mem_cons]

/-- The GET handler of the activity route: requires a truthy `userId`
query parameter or `isAdmin=true`; admins read the whole store,
non-admins only their own records; results are ordered newest-first. -/
def getActivities (userIdParam isAdminParam : Option String) (db : List StoredActivity) :
    Except Nat (List StoredActivity) :=
  let isAdmin := isAdminParam = some "true"
  if ¬ isAdmin ∧ ¬ truthyStr userIdParam then
    .error 401
  else
    let filtered :=
      if truthyStr userIdParam ∧ ¬ isAdmin then
        db.filter (fun r => some r.userId = userIdParam)
      else db
    .ok (sortByTimestampDesc filtered)

/-- C6: with neither a truthy user id nor the admin flag the activity
query fails with 401; with the admin flag it succeeds and returns every
stored record regardless of the supplied user id; a non-admin query
with a user id returns exactly the records owned by that id. -/
theorem getActivities_spec (u a : Option String) (db : List StoredActivity) :
    (truthyStr u = false → a ≠ some "true" → getActivities u a db = .error 401) ∧
    (a = some "true" → ∃ res, getActivities u a db = .ok res ∧ ∀ r, r ∈ res ↔ r ∈ db) ∧
    (a ≠ some "true" → ∀ s, u = some s → s ≠ "" →
      ∃ res, getActivities u a db = .ok res ∧
        ∀ r, r ∈ res ↔ r ∈ db ∧ r.userId = s) := by
  refine ⟨?_, ?_, ?_⟩
  · intro hu ha
    unfold getActivities
    simp [ha, hu]
  · intro ha
    refine ⟨sortByTimestampDesc db, ?_, ?_⟩
    · unfold getActivities
      simp [ha]
    · intro r
      exact mem_sortByTimestampDesc r db
  · intro ha s hu hs
    subst hu
    have htr : truthyStr (some s) = true := by simp [truthyStr, hs]
    refine ⟨sortByTimestampDesc (db.filter (fun r => some r.userId = some s)), ?_, ?_⟩
    · unfold getActivities
      simp [ha, htr]
    · intro r
      rw [mem_sortByTimestampDesc, List.mem_filter]
      simp

/-- Witness for C6: a two-record store queried in all three modes. -/
theorem getActivities_spec_witness :
    getActivities none none [] = .error 401 ∧
    (∃ res, getActivities (some "u2") (some "true")
        [StoredActivity.mk "u1" "n" "e" "s" 1 .notes_access none 5] = .ok res ∧
      ∀ r, r ∈ res ↔ r ∈ [StoredActivity.mk "u1" "n" "e" "s" 1 .notes_access none 5]) ∧
    (∃ res, getActivities (some "u1") none
        [StoredActivity.mk "u1" "n" "e" "s" 1 .notes_access none 5] = .ok res ∧
      ∀ r, r ∈ res ↔
        r ∈ [StoredActivity.mk "u1" "n" "e" "s" 1 .notes_access none 5] ∧ r.userId = "u1") :=
  ⟨(getActivities_spec none none []).1 rfl (by simp),
   (getActivities_spec (some "u2") (some "true")
     [StoredActivity.mk "u1" "n" "e" "s" 1 .notes_access none 5]).2.1 rfl,
   (getActivities_spec (some "u1") none
     [StoredActivity.mk "u1" "n" "e" "s" 1 .notes_access none 5]).2.2
     (by simp) "u1" rfl (by simp)⟩

/-! ### Client-side quiz submission (`handleSubmitQuiz`) -/

/-- A quiz question as the client components type it. -/
structure ClientQuizQuestion where
  question : String
  options : List String
  answer : String

/-- The `reduce` in `handleSubmitQuiz`: one point per question whose
recorded answer under the stringified index strictly equals the
question's answer (`undefined === answer` is false). -/
def computeQuizScore (quiz : List ClientQuizQuestion) (userAnswers : List (String × String)) : Nat :=
  quiz.enum.foldl
    (fun acc iq =>
      if userAnswers.lookup (toString iq.1) = some iq.2.answer then acc + 1 else acc)
    0

/-- The quiz result object `handleSubmitQuiz` posts to the activity
route: the computed score, the quiz length, and the raw answer map. -/
def handleSubmitQuiz (quiz : List ClientQuizQuestion) (userAnswers : List (String × String)) :
    QuizResult :=
  { score := Int.ofNat (computeQuizScore quiz userAnswers)
    totalQuestions := Int.ofNat quiz.length
    answers := userAnswers }

theorem foldl_if_count {α : Type} (p : α → Bool) :
    ∀ (l : List α) (acc : Nat),
      l.foldl (fun a x => if p x then a + 1 else a) acc = acc + l.countP p := by
  intro l
  induction l with
  | nil => intro acc; simp
  | cons x xs ih =>
      intro acc
      simp only [List.foldl_cons, List.countP_cons, ih]
      by_cases hp : p x = true
      · simp [hp]; omega
      · simp [hp]

/-- The two-question quiz of the spec scenario (correct answers Paris,
Madrid). -/
def demoQuiz : List ClientQuizQuestion :=
  [⟨"Capital of France?", ["Berlin", "Madrid", "Paris", "Rome"], "Paris"⟩,
   ⟨"Capital of Spain?", ["Berlin", "Madrid", "Paris", "Rome"], "Madrid"⟩]

/-- The submitted answer map of the spec scenario. -/
def demoAnswers : List (String × String) :=
  [("0", "Paris"), ("1", "Berlin")]

/-- C9: the submitted score is the number of question indices whose
recorded answer (looked up under the index as a string) equals that
question's `answer`, and the logged total is the number of questions;
in particular the spec scenario logs score 1, total 2. -/
theorem handleSubmitQuiz_spec (quiz : List ClientQuizQuestion)
    (userAnswers : List (String × String)) :
    (handleSubmitQuiz quiz userAnswers).score =
      Int.ofNat (quiz.enum.countP
        (fun iq => decide (userAnswers.lookup (toString iq.1) = some iq.2.answer))) ∧
    (handleSubmitQuiz quiz userAnswers).totalQuestions = Int.ofNat quiz.length ∧
    (handleSubmitQuiz demoQuiz demoAnswers).score = 1 ∧
    (handleSubmitQuiz demoQuiz demoAnswers).totalQuestions = 2 := by
  refine ⟨?_, rfl, rfl, rfl⟩
  unfold handleSubmitQuiz computeQuizScore
  rw [show (fun (acc : Nat) (iq : Nat × ClientQuizQuestion) =>
      if userAnswers.lookup (toString iq.1) = some iq.2.answer then acc + 1 else acc) =
    (fun acc iq =>
      if (fun iq : Nat × ClientQuizQuestion =>
          decide (userAnswers.lookup (toString iq.1) = some iq.2.answer)) iq
      then acc + 1 else acc) from by
    funext acc iq
    simp]
  rw [foldl_if_count]
  simp

/-! ### The Exam document store -/

/-- A chapter of the nested exam document.  `quiz` holds the raw
entries that survived sanitisation (the schema does not retype them). -/
structure Chapter where
  chapterNumber : Int
  notesFileUrl : String
  publicId : String
  summary : String
  quiz : List Json

/-- A subject of the nested exam document. -/
structure Subject where
  name : String
  chapters : List Chapter

/-- The root exam aggregate. -/
structure ExamDoc where
  exam : String
  subjects : List Subject

/-- Mutate the first element satisfying `p` in place, as the source's
`find`-then-assign pattern does. -/
def updateFirstWhere {α : Type} (p : α → Bool) (f : α → α) : List α → List α
  | [] => []
  | x :: xs => if p x then f x :: xs else x :: updateFirstWhere p f xs

/-- Remove the first element satisfying `p`, as `findIndex` + `splice`
does. -/
def removeFirstWhere {α : Type} (p : α → Bool) : List α → List α
  | [] => []
  | x :: xs => if p x then xs else x :: removeFirstWhere p xs

/-- The in-place overwrite of an existing chapter during a merge:
exactly the file reference, summary and quiz are replaced; the chapter
number is untouched. -/
def overwriteChapter (c nc : Chapter) : Chapter :=
  { c with notesFileUrl := nc.notesFileUrl, publicId := nc.publicId,
           summary := nc.summary, quiz := nc.quiz }

/-- Merge one incoming chapter into a chapter list: a new chapter
number is appended, an existing one has its first occurrence
overwritten in place. -/
def mergeChapterInto (chapters : List Chapter) (nc : Chapter) : List Chapter :=
  if chapters.any (fun c => c.chapterNumber = nc.chapterNumber) then
    updateFirstWhere (fun c => c.chapterNumber = nc.chapterNumber)
      (fun c => overwriteChapter c nc) chapters
  else
    chapters ++ [nc]

/-- Merge one incoming subject into a subject list: an existing subject
of the same name has its chapter list merged chapter by chapter, a new
subject is appended wholesale. -/
def mergeSubjectInto (subjects : List Subject) (ns : Subject) : List Subject :=
  if subjects.any (fun s => s.name = ns.name) then
    updateFirstWhere (fun s => s.name = ns.name)
      (fun s => { s with chapters := ns.chapters.foldl mergeChapterInto s.chapters }) subjects
  else
    subjects ++ [ns]

/-- The whole merge loop of the POST handler over an existing exam
document. -/
def mergeIntoExam (doc : ExamDoc) (newSubjects : List Subject) : ExamDoc :=
  { doc with subjects := newSubjects.foldl mergeSubjectInto doc.subjects }

theorem any_eq_false_of_all_not {α : Type} (p : α → Bool) (l : List α)
    (h : ∀ x ∈ l, p x = false) : l.any p = false := by
  induction l with
  | nil => rfl
  | cons a as ih =>
      simp only [List.any_cons, h a (List.mem_cons_self a as), Bool.false_or]
      exact ih (fun x hx => h x (List.mem_cons_of_mem a hx))

theorem any_eq_true_of_middle {α : Type} (p : α → Bool) (pre post : List α) (x : α)
    (hx : p x = true) : (pre ++ x :: post).any p = true := by
  induction pre with
  | nil => simp [hx]
  | cons a as ih => simp only [List.cons_append, List.any_cons, ih, Bool.or_true]

theorem updateFirstWhere_middle {α : Type} (p : α → Bool) (f : α → α)
    (pre post : List α) (x : α)
    (hpre : ∀ a ∈ pre, p a = false) (hx : p x = true) :
    updateFirstWhere p f (pre ++ x :: post) = pre ++ f x :: post := by
  induction pre with
  | nil => simp [updateFirstWhere, hx]
  | cons a as ih =>
      simp only [List.cons_append, updateFirstWhere,
        hpre a (List.mem_cons_self a as), Bool.false_eq_true, if_false]
      rw [List.append_eq, ih (fun b hb => hpre b (List.mem_cons_of_mem a hb))]

theorem removeFirstWhere_middle {α : Type} (p : α → Bool)
    (pre post : List α) (x : α)
    (hpre : ∀ a ∈ pre, p a = false) (hx : p x = true) :
    removeFirstWhere p (pre ++ x :: post) = pre ++ post := by
  induction pre with
  | nil => simp [removeFirstWhere, hx]
  | cons a as ih =>
      simp only [List.cons_append, removeFirstWhere,
        hpre a (List.mem_cons_self a as), Bool.false_eq_true, if_false]
      rw [List.append_eq, ih (fun b hb => hpre b (List.mem_cons_of_mem a hb))]

/-- C4: merging an incoming subject appends it wholesale when its name
is new, and otherwise folds its chapters into the first subject of that
name; merging an incoming chapter appends it when its number is new,
and otherwise overwrites exactly the file reference, summary and quiz
of the first chapter with that number, in place, keeping its number. -/
theorem mergeSubjectInto_spec (subjects : List Subject) (ns : Subject)
    (chapters : List Chapter) (nc : Chapter) :
    ((∀ s ∈ subjects, s.name ≠ ns.name) → mergeSubjectInto subjects ns = subjects ++ [ns]) ∧
    (∀ pre s post, subjects = pre ++ s :: post → (∀ t ∈ pre, t.name ≠ ns.name) →
      s.name = ns.name →
      mergeSubjectInto subjects ns =
        pre ++ { s with chapters := ns.chapters.foldl mergeChapterInto s.chapters } :: post) ∧
    ((∀ c ∈ chapters, c.chapterNumber ≠ nc.chapterNumber) →
      mergeChapterInto chapters nc = chapters ++ [nc]) ∧
    (∀ cpre c cpost, chapters = cpre ++ c :: cpost →
      (∀ d ∈ cpre, d.chapterNumber ≠ nc.chapterNumber) →
      c.chapterNumber = nc.chapterNumber →
      mergeChapterInto chapters nc =
        cpre ++ Chapter.mk c.chapterNumber nc.notesFileUrl nc.publicId
          nc.summary nc.quiz :: cpost) := by
  refine ⟨?_, ?_, ?_, ?_⟩
  · intro h
    unfold mergeSubjectInto
    rw [any_eq_false_of_all_not _ _ (fun s hs => by simp [h s hs])]
    simp
  · intro pre s post hsubj hpre hname
    subst hsubj
    unfold mergeSubjectInto
    rw [any_eq_true_of_middle _ pre post s (by simp [hname])]
    simp only [if_true]
    exact updateFirstWhere_middle _ _ pre post s
      (fun a ha => by simp [hpre a ha]) (by simp [hname])
  · intro h
    unfold mergeChapterInto
    rw [any_eq_false_of_all_not _ _ (fun c hc => by simp [h c hc])]
    simp
  · intro cpre c cpost hch hpre hnum
    subst hch
    unfold mergeChapterInto
    rw [any_eq_true_of_middle _ cpre cpost c (by simp [hnum])]
    simp only [if_true]
    rw [updateFirstWhere_middle _ _ cpre cpost c
      (fun a ha => by simp [hpre a ha]) (by simp [hnum])]
    rfl

/-- Witness for C4: a store with one subject and one chapter, merged
with a fresh subject, a same-name subject, a fresh chapter and a
same-number chapter. -/
theorem mergeSubjectInto_spec_witness :
    (mergeSubjectInto [Subject.mk "Phy" []] (Subject.mk "Chem" []) =
      [Subject.mk "Phy" []] ++ [Subject.mk "Chem" []]) ∧
    (mergeSubjectInto [Subject.mk "Phy" []] (Subject.mk "Phy" [Chapter.mk 1 "u" "p" "s" []]) =
      [] ++ Subject.mk "Phy"
        ((Chapter.mk 1 "u" "p" "s" [] :: []).foldl mergeChapterInto []) :: []) ∧
    (mergeChapterInto [Chapter.mk 1 "u" "p" "s" []] (Chapter.mk 2 "u2" "p2" "s2" []) =
      [Chapter.mk 1 "u" "p" "s" []] ++ [Chapter.mk 2 "u2" "p2" "s2" []]) ∧
    (mergeChapterInto [Chapter.mk 1 "u" "p" "s" []] (Chapter.mk 1 "u2" "p2" "s2" []) =
      [] ++ Chapter.mk 1 "u2" "p2" "s2" [] :: []) :=
  ⟨(mergeSubjectInto_spec [Subject.mk "Phy" []] (Subject.mk "Chem" []) [] (Chapter.mk 0 "" "" "" [])).1
      (by intro s hs; simp at hs; subst hs; simp),
   (mergeSubjectInto_spec [Subject.mk "Phy" []]
      (Subject.mk "Phy" [Chapter.mk 1 "u" "p" "s" []]) [] (Chapter.mk 0 "" "" "" [])).2.1
      [] (Subject.mk "Phy" []) [] rfl (by simp) rfl,
   (mergeSubjectInto_spec [] (Subject.mk "" [])
      [Chapter.mk 1 "u" "p" "s" []] (Chapter.mk 2 "u2" "p2" "s2" [])).2.2.1
      (by intro c hc; simp at hc; subst hc; simp),
   (mergeSubjectInto_spec [] (Subject.mk "" [])
      [Chapter.mk 1 "u" "p" "s" []] (Chapter.mk 1 "u2" "p2" "s2" [])).2.2.2
      [] (Chapter.mk 1 "u" "p" "s" []) [] rfl (by simp) rfl⟩

/-! ### The DELETE handler of the notes route -/

/-- The `deleteMany` filter of the DELETE handler: activity records
whose scope exactly matches the deleted chapter. -/
def activityMatches (exam subject : String) (chapterNumber : Int) (r : StoredActivity) : Bool :=
  r.exam == exam && r.subject == subject && r.chapterNumber == chapterNumber

/-- Remove the first chapter with the given number from a subject
(`findIndex` + `splice` in the source). -/
def removeChapterFromSubject (chapterNumber : Int) (s : Subject) : Subject :=
  { s with
    chapters := removeFirstWhere (fun c => c.chapterNumber == chapterNumber) s.chapters }

/-- Apply the chapter removal to the first subject with the given name
inside the located exam document. -/
def removeChapterFromDoc (subject : String) (chapterNumber : Int) (d : ExamDoc) : ExamDoc :=
  { d with
    subjects := (updateFirstWhere (fun s => s.name == subject)
                  (removeChapterFromSubject chapterNumber) d.subjects) }

set_option linter.unusedVariables false in
/-- The DELETE handler: validate, locate exam / subject / chapter (404
when absent), best-effort delete the external file (its outcome
`cloudOk` is swallowed by the `catch` and never read), best-effort
delete the matching activity records (`actOk = false` models that
`deleteMany` threw, leaving the activity store untouched), remove the
chapter from its subject, and save the aggregate. -/
def DELETEchapter (exam subject : String) (chapterNumber : Int)
    (cloudOk actOk : Bool) (docs : List ExamDoc) (acts : List StoredActivity) :
    Except Nat (List ExamDoc × List StoredActivity) :=
  if exam = "" ∨ subject = "" then .error 400
  else
    match docs.find? (fun d => d.exam == exam) with
    | none => .error 404
    | some doc =>
        match doc.subjects.find? (fun s => s.name == subject) with
        | none => .error 404
        | some subj =>
            if subj.chapters.all (fun c => !(c.chapterNumber == chapterNumber)) then
              .error 404
            else
              let acts2 :=
                if actOk then
                  acts.filter (fun r => !(activityMatches exam subject chapterNumber r))
                else acts
              let docs2 :=
                updateFirstWhere (fun d => d.exam == exam)
                  (removeChapterFromDoc subject chapterNumber) docs
              .ok (docs2, acts2)

theorem find?_middle {α : Type} (p : α → Bool) (pre post : List α) (x : α)
    (hpre : ∀ a ∈ pre, p a = false) (hx : p x = true) :
    (pre ++ x :: post).find? p = some x := by
  induction pre with
  | nil => exact List.find?_cons_of_pos _ hx
  | cons a as ih =>
      rw [List.cons_append,
        List.find?_cons_of_neg _ (by simp [hpre a (List.mem_cons_self a as)]),
        ih (fun b hb => hpre b (List.mem_cons_of_mem a hb))]

theorem all_eq_false_of_middle {α : Type} (p : α → Bool) (pre post : List α) (x : α)
    (hx : p x = false) : (pre ++ x :: post).all p = false := by
  rw [← Bool.not_eq_true, List.all_eq_true]
  intro h
  have hx2 := h x (by simp)
  rw [hx] at hx2
  cases hx2

/-- C7: with a non-blank exam and subject, the DELETE request fails
with 404 (leaving both stores untouched, as no success state is
produced) when no exam document, no subject of that name, or no chapter
of that number exists; when the chapter exists, the request succeeds
regardless of the external-file deletion outcome, the saved aggregate
has exactly that chapter removed from its subject, and the activity
store loses exactly the records matching (exam, subject,
chapterNumber) when the activity deletion succeeds and is untouched
when it fails. -/
theorem DELETEchapter_spec (exam subject : String) (n : Int) (cloudOk actOk : Bool)
    (docs : List ExamDoc) (acts : List StoredActivity)
    (hexam : exam ≠ "") (hsubj : subject ≠ "") :
    (docs.find? (fun d => d.exam == exam) = none →
      DELETEchapter exam subject n cloudOk actOk docs acts = .error 404) ∧
    (∀ doc, docs.find? (fun d => d.exam == exam) = some doc →
      doc.subjects.find? (fun s => s.name == subject) = none →
      DELETEchapter exam subject n cloudOk actOk docs acts = .error 404) ∧
    (∀ doc subj, docs.find? (fun d => d.exam == exam) = some doc →
      doc.subjects.find? (fun s => s.name == subject) = some subj →
      (∀ c ∈ subj.chapters, c.chapterNumber ≠ n) →
      DELETEchapter exam subject n cloudOk actOk docs acts = .error 404) ∧
    (∀ dpre doc dpost spre subj spost cpre ch cpost,
      docs = dpre ++ doc :: dpost → (∀ d ∈ dpre, d.exam ≠ exam) → doc.exam = exam →
      doc.subjects = spre ++ subj :: spost → (∀ s ∈ spre, s.name ≠ subject) →
      subj.name = subject →
      subj.chapters = cpre ++ ch :: cpost → (∀ c ∈ cpre, c.chapterNumber ≠ n) →
      ch.chapterNumber = n →
      DELETEchapter exam subject n cloudOk actOk docs acts =
        .ok (dpre ++
              { doc with subjects :=
                  spre ++ { subj with chapters := cpre ++ cpost } :: spost } :: dpost,
             if actOk then
               acts.filter (fun r => !(activityMatches exam subject n r))
             else acts)) := by
  have hval : ¬ (exam = "" ∨ subject = "") := by simp [hexam, hsubj]
  refine ⟨?_, ?_, ?_, ?_⟩
  · intro hfind
    unfold DELETEchapter
    rw [if_neg hval, hfind]
  · intro doc hfind hfinds
    unfold DELETEchapter
    rw [if_neg hval, hfind]
    dsimp only
    rw [hfinds]
  · intro doc subj hfind hfinds hnoch
    unfold DELETEchapter
    rw [if_neg hval, hfind]
    dsimp only
    rw [hfinds]
    dsimp only
    rw [if_pos (List.all_eq_true.mpr (fun c hc => by simp [hnoch c hc]))]
  · intro dpre doc dpost spre subj spost cpre ch cpost
      hdocs hdpre hdoc hsubjs hspre hsubjname hchs hcpre hchn
    subst hdocs
    unfold DELETEchapter
    rw [if_neg hval,
      find?_middle _ dpre dpost doc (fun d hd => by simp [hdpre d hd]) (by simp [hdoc])]
    dsimp only
    rw [hsubjs,
      find?_middle _ spre spost subj (fun s hs => by simp [hspre s hs]) (by simp [hsubjname])]
    dsimp only
    rw [hchs]
    rw [if_neg (by
      rw [all_eq_false_of_middle _ cpre cpost ch (by simp [hchn])]
      simp)]
    rw [updateFirstWhere_middle _ _ dpre dpost doc
        (fun d hd => by simp [hdpre d hd]) (by simp [hdoc])]
    unfold removeChapterFromDoc removeChapterFromSubject
    rw [hsubjs,
      updateFirstWhere_middle _ _ spre spost subj
        (fun s hs => by simp [hspre s hs]) (by simp [hsubjname]),
      hchs,
      removeFirstWhere_middle _ cpre cpost ch (fun c hc => by simp [hcpre c hc]) (by simp [hchn])]

/-- Witness for C7: a store with one exam, one subject and two
chapters; deleting chapter 1 succeeds and removes it together with its
matching activity record, and a request against an absent exam fails
with 404. -/
theorem DELETEchapter_spec_witness :
    DELETEchapter "E2" "S1" 1 true true
      [ExamDoc.mk "E1" [Subject.mk "S1"
        [Chapter.mk 1 "u1" "p1" "s1" [], Chapter.mk 2 "u2" "p2" "s2" []]]]
      [] = .error 404 ∧
    DELETEchapter "E1" "S1" 1 false true
      [ExamDoc.mk "E1" [Subject.mk "S1"
        [Chapter.mk 1 "u1" "p1" "s1" [], Chapter.mk 2 "u2" "p2" "s2" []]]]
      [StoredActivity.mk "u" "n" "E1" "S1" 1 .notes_access none 0,
       StoredActivity.mk "u" "n" "E1" "S1" 2 .notes_access none 0] =
      .ok ([ExamDoc.mk "E1" [Subject.mk "S1" [Chapter.mk 2 "u2" "p2" "s2" []]]],
           [StoredActivity.mk "u" "n" "E1" "S1" 2 .notes_access none 0]) :=
  ⟨(DELETEchapter_spec "E2" "S1" 1 true true
      [ExamDoc.mk "E1" [Subject.mk "S1"
        [Chapter.mk 1 "u1" "p1" "s1" [], Chapter.mk 2 "u2" "p2" "s2" []]]]
      [] (by decide) (by decide)).1 rfl,
   (DELETEchapter_spec "E1" "S1" 1 false true
      [ExamDoc.mk "E1" [Subject.mk "S1"
        [Chapter.mk 1 "u1" "p1" "s1" [], Chapter.mk 2 "u2" "p2" "s2" []]]]
      [StoredActivity.mk "u" "n" "E1" "S1" 1 .notes_access none 0,
       StoredActivity.mk "u" "n" "E1" "S1" 2 .notes_access none 0]
      (by decide) (by decide)).2.2.2
      [] (ExamDoc.mk "E1" [Subject.mk "S1"
        [Chapter.mk 1 "u1" "p1" "s1" [], Chapter.mk 2 "u2" "p2" "s2" []]]) []
      [] (Subject.mk "S1"
        [Chapter.mk 1 "u1" "p1" "s1" [], Chapter.mk 2 "u2" "p2" "s2" []]) []
      [] (Chapter.mk 1 "u1" "p1" "s1" []) [Chapter.mk 2 "u2" "p2" "s2" []]
      rfl (by simp) rfl rfl (by simp) rfl rfl (by simp) rfl⟩

/-! ### The PUT handler of the notes route -/

/-- Result of `uploadToCloudinary`. -/
structure UploadRes where
  url : String
  publicId : String

/-- Environment of a PUT request: the ambient JSON parser, the outcome
of the Cloudinary upload, the outcome of `extractTextFromPDF` on the
new file (`none` = it threw), and the generative API. -/
structure PutEnv where
  parse : String → Option Json
  upload : Except Unit UploadRes
  extractedText : Option String
  api : String → Except Unit Json

/-- The mutation of the located chapter performed by the notes-file
branch of PUT: new file reference, and a summary regenerated from the
extracted text (the placeholder when extraction threw). -/
def putFileUpdate (E : PutEnv) (ur : UploadRes) (c : Chapter) : Chapter :=
  { c with
    notesFileUrl := ur.url
    publicId := ur.publicId
    summary := (match E.extractedText with
                | some t => generateContent E.api t GenType.summary
                | none => "Summary generation failed.") }

/-- The notes-file branch of PUT: skipped without a file; upload
failure or a falsy upload result throws (caught by the handler as a
500); otherwise it yields the chapter mutation. -/
def putFileStep (E : PutEnv) (hasNotesFile : Bool) : Except Unit (Chapter → Chapter) :=
  if hasNotesFile then
    match E.upload with
    | .error _ => .error ()
    | .ok ur =>
        if ur.url = "" ∨ ur.publicId = "" then .error ()
        else .ok (putFileUpdate E ur)
  else .ok id

/-- The quiz branch of PUT: skipped for an absent or empty quiz string;
a parse failure (or a `TypeError` thrown inside the filter) is the 400
path; a parsed array replaces the quiz with the entries surviving the
same filter the sanitizer uses; a parsed non-array only logs a warning
and changes nothing. -/
def putQuizStep (E : PutEnv) (quizString : Option String) : Except Unit (Chapter → Chapter) :=
  match quizString with
  | none => .ok id
  | some qs =>
      if qs = "" then .ok id
      else
        match E.parse qs with
        | none => .error ()
        | some v =>
            match v with
            | .arr items =>
                match filterQuizItems items with
                | .error _ => .error ()
                | .ok kept => .ok (fun c => { c with quiz := kept })
            | _ => .ok id

/-- Apply a chapter mutation at the located (exam, subject, chapter)
position and save, as `examData.save()` persists the in-memory
mutation. -/
def applyChapterUpdate (exam subject : String) (n : Int) (f : Chapter → Chapter)
    (docs : List ExamDoc) : List ExamDoc :=
  updateFirstWhere (fun d => d.exam == exam)
    (fun d =>
      { d with
        subjects := (updateFirstWhere (fun s => s.name == subject)
                      (fun s =>
                        { s with
                          chapters := (updateFirstWhere
                                        (fun c => c.chapterNumber == n) f s.chapters) })
                      d.subjects) })
    docs

/-- The PUT handler: validate, locate exam / subject / chapter (404
when absent), run the notes-file branch (a throw there is the 500
path), run the quiz branch (a throw there is the 400 path, before any
save), then save the mutated aggregate and return 200. -/
def PUTchapter (E : PutEnv) (exam subject : String) (chapterNumber : Option Int)
    (hasNotesFile : Bool) (quizString : Option String) (docs : List ExamDoc) :
    Nat × List ExamDoc :=
  if exam = "" ∨ subject = "" ∨ chapterNumber = none then (400, docs)
  else
    match chapterNumber with
    | none => (400, docs)
    | some n =>
        match docs.find? (fun d => d.exam == exam) with
        | none => (404, docs)
        | some doc =>
            match doc.subjects.find? (fun s => s.name == subject) with
            | none => (404, docs)
            | some subj =>
                match subj.chapters.find? (fun c => c.chapterNumber == n) with
                | none => (404, docs)
                | some _ =>
                    match putFileStep E hasNotesFile with
                    | .error _ => (500, docs)
                    | .ok fileUpd =>
                        match putQuizStep E quizString with
                        | .error _ => (400, docs)
                        | .ok quizUpd =>
                            (200, applyChapterUpdate exam subject n
                              (fun c => quizUpd (fileUpd c)) docs)

/-- C1 (amended): on an update of an existing chapter with a
replacement quiz (and no new notes file), an unparsable quiz string
fails the whole update with a 400 format error and leaves the store
unchanged; but update-time validation of a parsed quiz array is as
lenient as generation-time sanitisation — it throws (400) only when
the filter itself throws on a `null` entry, and otherwise silently
drops each invalid entry, replacing the chapter's quiz with exactly
the surviving entries and answering 200. -/
theorem PUTchapter_quiz_update (E : PutEnv) (exam subject : String) (n : Int)
    (qs : String) (docs : List ExamDoc) (doc : ExamDoc) (subj : Subject) (ch : Chapter)
    (hexam : exam ≠ "") (hsubjname : subject ≠ "") (hqs : qs ≠ "")
    (hfind : docs.find? (fun d => d.exam == exam) = some doc)
    (hfinds : doc.subjects.find? (fun s => s.name == subject) = some subj)
    (hfindc : subj.chapters.find? (fun c => c.chapterNumber == n) = some ch) :
    (E.parse qs = none →
      PUTchapter E exam subject (some n) false (some qs) docs = (400, docs)) ∧
    (∀ items, E.parse qs = some (Json.arr items) →
      (filterQuizItems items = .error () →
        PUTchapter E exam subject (some n) false (some qs) docs = (400, docs)) ∧
      (∀ kept, filterQuizItems items = .ok kept →
        PUTchapter E exam subject (some n) false (some qs) docs =
          (200, applyChapterUpdate exam subject n
            (fun c => { c with quiz := kept }) docs))) := by
  have hval : ¬ (exam = "" ∨ subject = "" ∨ (some n : Option Int) = none) := by
    simp [hexam, hsubjname]
  have hput : ∀ q : Except Unit (Chapter → Chapter),
      putQuizStep E (some qs) = q →
      PUTchapter E exam subject (some n) false (some qs) docs =
        (match q with
         | .error _ => (400, docs)
         | .ok quizUpd =>
             (200, applyChapterUpdate exam subject n (fun c => quizUpd (id c)) docs)) := by
    intro q hq
    unfold PUTchapter
    rw [if_neg hval]
    dsimp only
    rw [hfind]
    dsimp only
    rw [hfinds]
    dsimp only
    rw [hfindc]
    dsimp only
    rw [show putFileStep E false = .ok id from rfl]
    dsimp only
    rw [hq]
  constructor
  · intro hparse
    rw [hput (.error ()) (by unfold putQuizStep; dsimp only; rw [if_neg hqs, hparse])]
  · intro items hparse
    constructor
    · intro hfl
      rw [hput (.error ()) (by unfold putQuizStep; dsimp only; rw [if_neg hqs, hparse]; dsimp only; rw [hfl])]
    · intro kept hfl
      rw [hput (.ok (fun c => { c with quiz := kept }))
        (by unfold putQuizStep; dsimp only; rw [if_neg hqs, hparse]; dsimp only; rw [hfl])]
      rfl

/-- The store used by the C1 counterexample and witness: one exam, one
subject, one chapter holding one valid quiz entry. -/
def putDemoDocs : List ExamDoc :=
  [ExamDoc.mk "E1" [Subject.mk "S1" [Chapter.mk 1 "u" "p" "s" [validQuizItem]]]]

/-- Environment of the C1 counterexample: `JSON.parse` on the
replacement quiz string `[5]` yields the array `[5]`; everything else
is irrelevant to the quiz branch. -/
def putDemoEnv : PutEnv :=
  { parse := fun s => if s = "[5]" then some (Json.arr [Json.num 5]) else none
    upload := .error ()
    extractedText := none
    api := fun _ => .error () }

/-- C1 counterexample: the replacement quiz `[5]` consists of one
invalid entry (no question / options / answer), yet the update is NOT
rejected: it answers 200 and silently drops the entry, leaving the
chapter with an empty quiz — refuting "any single invalid entry
rejects the whole request". -/
theorem PUTchapter_accepts_invalid_entry :
    PUTchapter putDemoEnv "E1" "S1" (some 1) false (some "[5]") putDemoDocs =
      (200, [ExamDoc.mk "E1" [Subject.mk "S1" [Chapter.mk 1 "u" "p" "s" []]]]) := by
  rfl

/-- Witness for C1 (amended): an unparsable quiz string gives 400 and
an unchanged store, while the parsed array `[5]` gives 200 with the
invalid entry dropped. -/
theorem PUTchapter_quiz_update_witness :
    PUTchapter putDemoEnv "E1" "S1" (some 1) false (some "nope") putDemoDocs =
      (400, putDemoDocs) ∧
    PUTchapter putDemoEnv "E1" "S1" (some 1) false (some "[5]") putDemoDocs =
      (200, applyChapterUpdate "E1" "S1" 1
        (fun c => { c with quiz := ([] : List Json) }) putDemoDocs) :=
  ⟨(PUTchapter_quiz_update putDemoEnv "E1" "S1" 1 "nope" putDemoDocs
      (ExamDoc.mk "E1" [Subject.mk "S1" [Chapter.mk 1 "u" "p" "s" [validQuizItem]]])
      (Subject.mk "S1" [Chapter.mk 1 "u" "p" "s" [validQuizItem]])
      (Chapter.mk 1 "u" "p" "s" [validQuizItem])
      (by decide) (by decide) (by decide) rfl rfl rfl).1 rfl,
   ((PUTchapter_quiz_update putDemoEnv "E1" "S1" 1 "[5]" putDemoDocs
      (ExamDoc.mk "E1" [Subject.mk "S1" [Chapter.mk 1 "u" "p" "s" [validQuizItem]]])
      (Subject.mk "S1" [Chapter.mk 1 "u" "p" "s" [validQuizItem]])
      (Chapter.mk 1 "u" "p" "s" [validQuizItem])
      (by decide) (by decide) (by decide) rfl rfl rfl).2
      [Json.num 5] rfl).2 [] rfl⟩

/-! ### The POST handler of the notes route -/

/-- Environment of a POST request: which `notes-file-<i>-<j>` form
slots hold a file, the per-slot Cloudinary upload outcome, the per-slot
PDF text extraction outcome (`none` = the download or extraction
threw), the generative API and the ambient JSON parser. -/
structure PostEnv where
  file : Nat → Nat → Bool
  upload : Nat → Nat → Except Unit UploadRes
  pdfText : Nat → Nat → Option String
  api : String → Except Unit Json
  parse : String → Option Json

/-- A chapter slot of the JSON-encoded `subjects` form field. -/
structure InputChapter where
  chapterNumber : Int

/-- A subject of the JSON-encoded `subjects` form field. -/
structure InputSubject where
  name : String
  chapters : List InputChapter

/-- Process one chapter slot: skipped (`none`) without a file; an
upload failure or a falsy upload result throws; otherwise extract the
text (placeholder when that throws), generate summary and quiz, and
sanitise the quiz. -/
def processChapter (E : PostEnv) (si ci : Nat) (c : InputChapter) :
    Except Unit (Option Chapter) :=
  if E.file si ci = false then .ok none
  else
    match E.upload si ci with
    | .error _ => .error ()
    | .ok ur =>
        if ur.url = "" ∨ ur.publicId = "" then .error ()
        else
          .ok (some
            { chapterNumber := c.chapterNumber
              notesFileUrl := ur.url
              publicId := ur.publicId
              summary := generateContent E.api
                ((E.pdfText si ci).getD "Text extraction failed.") GenType.summary
              quiz := parseQuizData E.parse (generateContent E.api
                ((E.pdfText si ci).getD "Text extraction failed.") GenType.quiz) })

/-- `Promise.all` over a subject's chapter slots, tracking the chapter
index. -/
def processChapters (E : PostEnv) (si : Nat) : Nat → List InputChapter →
    Except Unit (List (Option Chapter))
  | _, [] => .ok []
  | ci, c :: cs =>
      match processChapter E si ci c, processChapters E si (ci + 1) cs with
      | .ok r, .ok rs => .ok (r :: rs)
      | _, _ => .error ()

/-- Process one subject: skipped (`none`) for a blank (trimmed) name or
no chapter slots; otherwise process its chapters and skip the subject
when no chapter survived, else keep the trimmed name with the
surviving chapters. -/
def processSubject (E : PostEnv) (si : Nat) (s : InputSubject) :
    Except Unit (Option Subject) :=
  if jsTrim s.name = "" ∨ s.chapters.isEmpty then .ok none
  else
    match processChapters E si 0 s.chapters with
    | .error e => .error e
    | .ok pcs =>
        if (pcs.filterMap id).isEmpty then .ok none
        else .ok (some { name := jsTrim s.name, chapters := pcs.filterMap id })

/-- `Promise.all` over the incoming subjects, tracking the subject
index. -/
def processSubjects (E : PostEnv) : Nat → List InputSubject →
    Except Unit (List (Option Subject))
  | _, [] => .ok []
  | si, s :: ss =>
      match processSubject E si s, processSubjects E (si + 1) ss with
      | .ok r, .ok rs => .ok (r :: rs)
      | _, _ => .error ()

/-- The POST handler: validate the form fields, process every subject
(a throw anywhere is the 500 path), reject with 400 when no subject
survived, then merge into an existing exam document (200) or create a
new one (201). -/
def POSTexam (E : PostEnv) (exam : String) (subjects : List InputSubject)
    (docs : List ExamDoc) : Nat × List ExamDoc :=
  if exam = "" then (400, docs)
  else
    match processSubjects E 0 subjects with
    | .error _ => (500, docs)
    | .ok processed =>
        if (processed.filterMap id).isEmpty then (400, docs)
        else if docs.any (fun d => d.exam == exam) then
          (200, updateFirstWhere (fun d => d.exam == exam)
            (fun d => mergeIntoExam d (processed.filterMap id)) docs)
        else
          (201, docs ++ [{ exam := exam, subjects := processed.filterMap id }])

/-- A subject the POST handler skips: blank trimmed name, no chapter
slots, or no slot with a file. -/
def subjectSkipped (E : PostEnv) (si : Nat) (s : InputSubject) : Prop :=
  jsTrim s.name = "" ∨ s.chapters = [] ∨
    ∀ ci, ci < s.chapters.length → E.file si ci = false

theorem processChapters_all_none (E : PostEnv) (si : Nat) :
    ∀ (cs : List InputChapter) (ci : Nat),
      (∀ k, k < cs.length → E.file si (ci + k) = false) →
      ∃ l, processChapters E si ci cs = .ok l ∧ ∀ x ∈ l, x = none := by
  intro cs
  induction cs with
  | nil => intro ci _; exact ⟨[], rfl, by simp⟩
  | cons c cs ih =>
      intro ci h
      have h0 : E.file si ci = false := by
        have := h 0 (by simp)
        simpa using this
      obtain ⟨l, hl, hall⟩ := ih (ci + 1) (fun k hk => by
        have := h (k + 1) (by simp; omega)
        rwa [show ci + (k + 1) = ci + 1 + k from by omega] at this)
      refine ⟨none :: l, ?_, ?_⟩
      · unfold processChapters processChapter
        rw [if_pos h0, hl]
      · intro x hx
        rcases List.mem_cons.mp hx with rfl | hx
        · rfl
        · exact hall x hx

theorem processSubject_skipped (E : PostEnv) (si : Nat) (s : InputSubject)
    (h : subjectSkipped E si s) : processSubject E si s = .ok none := by
  unfold processSubject
  rcases h with hname | hch | hfiles
  · rw [if_pos (Or.inl hname)]
  · rw [if_pos (Or.inr (by simp [hch]))]
  · by_cases hskip : jsTrim s.name = "" ∨ s.chapters.isEmpty
    · rw [if_pos hskip]
    · rw [if_neg hskip]
      obtain ⟨l, hl, hall⟩ := processChapters_all_none E si s.chapters 0
        (fun k hk => by simpa using hfiles k hk)
      rw [hl]
      dsimp only
      rw [if_pos (by
        rw [List.isEmpty_iff, List.filterMap_eq_nil_iff]
        exact fun x hx => hall x hx)]

theorem processSubjects_all_skipped (E : PostEnv) :
    ∀ (ss : List InputSubject) (si : Nat),
      (∀ k s, ss.get? k = some s → subjectSkipped E (si + k) s) →
      ∃ l, processSubjects E si ss = .ok l ∧ l.filterMap id = [] := by
  intro ss
  induction ss with
  | nil => intro si _; exact ⟨[], rfl, rfl⟩
  | cons s ss ih =>
      intro si h
      have h0 : subjectSkipped E si s := by
        have := h 0 s (by simp)
        simpa using this
      obtain ⟨l, hl, hfm⟩ := ih (si + 1) (fun k t hk => by
        have := h (k + 1) t (by simpa using hk)
        rwa [show si + (k + 1) = si + 1 + k from by omega] at this)
      refine ⟨none :: l, ?_, ?_⟩
      · unfold processSubjects
        rw [processSubject_skipped E si s h0, hl]
      · simpa using hfm

/-- C10: when every incoming subject is skipped by validation (blank
trimmed name, no chapter slots, or no slot carrying a file), the POST
handler answers 400 and the document store is returned unchanged — no
exam document is created or modified. -/
theorem POSTexam_no_valid_subjects (E : PostEnv) (exam : String)
    (subjects : List InputSubject) (docs : List ExamDoc)
    (h : ∀ k s, subjects.get? k = some s → subjectSkipped E k s) :
    POSTexam E exam subjects docs = (400, docs) := by
  by_cases hexam : exam = ""
  · unfold POSTexam
    rw [if_pos hexam]
  · obtain ⟨l, hl, hfm⟩ := processSubjects_all_skipped E subjects 0
      (fun k s hk => by simpa using h k s hk)
    unfold POSTexam
    rw [if_neg hexam, hl]
    dsimp only
    rw [if_pos (by rw [List.isEmpty_iff]; exact hfm)]

/-- Witness for C10: one subject with one chapter slot but no uploaded
file; POST answers 400 and leaves the (empty) store unchanged. -/
theorem POSTexam_no_valid_subjects_witness :
    POSTexam
      (PostEnv.mk (fun _ _ => false) (fun _ _ => .error ()) (fun _ _ => none)
        (fun _ => .error ()) (fun _ => none))
      "GATE" [InputSubject.mk "Physics" [InputChapter.mk 1]] [] = (400, []) :=
  POSTexam_no_valid_subjects
    (PostEnv.mk (fun _ _ => false) (fun _ _ => .error ()) (fun _ _ => none)
      (fun _ => .error ()) (fun _ => none))
    "GATE" [InputSubject.mk "Physics" [InputChapter.mk 1]] []
    (by
      intro k s hk
      cases k with
      | zero =>
          cases hk
          exact Or.inr (Or.inr (fun ci _ => rfl))
      | succ m => cases hk)

end DYET
